import Mathlib

/-!
Verification of the ADGM corporate-agent document pipeline.

A shallow embedding of the repository's pure logic:

* `docx_utils.py` — paragraph parsing, heuristic paragraph matching and
  review-note insertion.  A docx document is modelled as its ordered list of
  paragraph texts (`List String`); `python-docx`'s `Document(path).paragraphs`
  is the full container paragraph list, including empty and whitespace-only
  paragraphs.
* `classifier.py` — keyword/regex document classification and process
  detection.
* `app.py` — the rule-based red-flag scanner (module-level checks).

Modelling notes shared by all definitions: Python's `\w` regex class and
`str.lower`/`str.strip` are Unicode-aware; the embedding models the ASCII
fragment (`[A-Za-z0-9_]`, ASCII case folding, ASCII whitespace), which is
exact on every string the repository manipulates.  String operations are
written as structural recursions over `String.data` so that every definition
evaluates by kernel reduction.  Python dictionaries with possibly-missing
keys are modelled as structures of `Option` fields; `dict.get(k, d)` becomes
`Option.getD`, and an f-string interpolation of a missing (`None`) value
renders as the literal string `"None"`, as in Python.
-/

namespace ADGM

/-- Python regex `\w` (ASCII fragment): letters, digits, underscore. -/
def isWordChar (c : Char) : Bool := c.isAlphanum || c == '_'

/-- Python `str.lower()` (ASCII fragment). -/
def pyLower (s : String) : String := String.mk (s.data.map Char.toLower)

/-- Split a character list at every character satisfying `p`.  Adjacent
separators yield empty pieces, exactly like `String.split`; relative to
Python's `re.split` on separator *runs* this only adds empty pieces, which
every use below filters away. -/
def splitOnPred (p : Char → Bool) : List Char → List (List Char)
  | [] => [[]]
  | c :: cs =>
    if p c then [] :: splitOnPred p cs
    else
      match splitOnPred p cs with
      | [] => [[c]]
      | t :: ts => (c :: t) :: ts

/-- Python substring containment `needle in hay` over character lists. -/
def listContainsSub (needle : List Char) : List Char → Bool
  | [] => needle.isEmpty
  | c :: cs => List.isPrefixOf needle (c :: cs) || listContainsSub needle cs

/-- Python's substring containment `needle in hay` on `str`. -/
def strContainsSub (hay needle : String) : Bool :=
  listContainsSub needle.data hay.data

/-- `re.split(r"\W+", s.lower())` followed by `len(t) > 3` filtering, as in
`_find_paragraph_index_for_issue` (docx_utils.py lines 22-23). -/
def tokenize (s : String) : List String :=
  ((splitOnPred (fun c => !(isWordChar c)) (pyLower s).data).map String.mk).filter
    (fun t => t.length > 3)

/-- The score loop body of `_find_paragraph_index_for_issue`
(docx_utils.py lines 29-35): +2 for every section token occurring in the
lowercased paragraph text `pl`, +1 for every issue token so occurring. -/
def scoreParagraph (sectionTokens issueTokens : List String) (pl : String) : Nat :=
  2 * (sectionTokens.countP (fun tok => strContainsSub pl tok)) +
    (issueTokens.countP (fun tok => strContainsSub pl tok))

/-- The `for i, para in enumerate(doc.paragraphs)` loop of
`_find_paragraph_index_for_issue` (docx_utils.py lines 25-38): running
`(best_idx, best_score)` state, updated only on a strictly greater score. -/
def bestLoop (scoreOf : String → Nat) :
    List String → Nat → Option Nat → Nat → Option Nat × Nat
  | [], _, bestIdx, bestScore => (bestIdx, bestScore)
  | para :: rest, i, bestIdx, bestScore =>
    if bestScore < scoreOf para then bestLoop scoreOf rest (i + 1) (some i) (scoreOf para)
    else bestLoop scoreOf rest (i + 1) bestIdx bestScore

/-- `_find_paragraph_index_for_issue(doc, section, issue_text)`
(docx_utils.py lines 17-42).  The document argument is its ordered paragraph
text list.  Returns the best-scoring paragraph index if the best score is at
least 1, else `none`. -/
def find_paragraph_index_for_issue (paragraphs : List String)
    (sectionLabel issueText : String) : Option Nat :=
  let section_tokens := tokenize sectionLabel
  let issue_tokens := tokenize issueText
  let res := bestLoop
    (fun para => scoreParagraph section_tokens issue_tokens (pyLower para)) paragraphs 0 none 0
  if 1 ≤ res.2 then res.1 else none

/-- `_insert_after_paragraph(doc, para_index, text)` (docx_utils.py lines
45-66): the note paragraph is first appended at the end
(`doc.add_paragraph()`), then moved to sit immediately after the paragraph at
`para_index` (`p_elm.addnext`).  If the repositioning indexing fails (index
out of range) the exception is swallowed and the note stays appended at the
end; the function reports success either way. -/
def insert_after_paragraph (paragraphs : List String) (paraIndex : Nat)
    (text : String) : List String :=
  if paraIndex < paragraphs.length then
    paragraphs.take (paraIndex + 1) ++ [text] ++ paragraphs.drop (paraIndex + 1)
  else
    paragraphs ++ [text]

/-- An issue record as consumed by `insert_review_notes_and_save`: a Python
dict whose keys may be absent.  `document` is the extra key attached by
app.py; the annotation code never reads it. -/
structure Issue where
  document : Option String := none
  sectionLabel : Option String := none
  issue : Option String := none
  severity : Option String := none
  suggestion : Option String := none
deriving DecidableEq, Repr

/-- Python f-string interpolation of a `str`-or-`None` value:
`f"{x}"` renders `None` as `"None"`. -/
def pyInterp (o : Option String) : String :=
  match o with
  | some s => s
  | none => "None"

/-- The note text built for each issue (docx_utils.py line 78):
`f"REVIEW NOTE (severity={iss.get('severity','Medium')}): {iss.get('issue')}. Suggestion: {iss.get('suggestion','')}"`. -/
def noteTextOf (iss : Issue) : String :=
  "REVIEW NOTE (severity=" ++ iss.severity.getD "Medium" ++ "): " ++
    pyInterp iss.issue ++ ". Suggestion: " ++ iss.suggestion.getD ""

/-- One iteration of the issue loop of `insert_review_notes_and_save`
(docx_utils.py lines 76-90).  `inserted` mirrors the Python flag: it is set
exactly when the section label is non-empty (Python truthiness of
`iss.get("section", "")`) and the paragraph lookup returned an index; the
lookup itself is total on string inputs, so the `except` branch around it is
unreachable.  When not inserted, a general fallback note is appended. -/
def annotateIssue (paragraphs : List String) (iss : Issue) : List String :=
  let sectionLabel := iss.sectionLabel.getD ""
  let noteText := noteTextOf iss
  let inserted :=
    if sectionLabel ≠ "" then
      match find_paragraph_index_for_issue paragraphs sectionLabel (iss.issue.getD "") with
      | some idx => some (insert_after_paragraph paragraphs idx noteText)
      | none => none
    else none
  match inserted with
  | some ps => ps
  | none => paragraphs ++ ["REVIEW NOTE (general): " ++ noteText]

/-- `insert_review_notes_and_save(original_path, issues, out_path)`
(docx_utils.py lines 69-92), on the paragraph sequence of the document loaded
from `original_path`: each issue is processed in order against the live,
already-extended paragraph sequence.  File persistence is outside the
embedding; the result is the paragraph sequence written to `out_path`. -/
def insert_review_notes_and_save (paragraphs : List String)
    (issues : List Issue) : List String :=
  issues.foldl annotateIssue paragraphs

/-- Python `str.strip()` (ASCII whitespace fragment). -/
def pyStrip (s : String) : String :=
  String.mk (((s.data.dropWhile Char.isWhitespace).reverse.dropWhile Char.isWhitespace).reverse)

/-- The record built per uploaded file by `parse_docx_documents`
(docx_utils.py line 13). -/
structure ParsedDocument where
  path : String
  text : String
  paragraphs : List String
deriving DecidableEq, Repr

/-- A docx file as the loader sees it: its path together with
`Document(path).paragraphs` — the container's full ordered paragraph text
list, including empty (`""`) and whitespace-only paragraphs. -/
def document_paragraphs (file : String × List String) : List String := file.2

/-- `parse_docx_documents(paths)` (docx_utils.py lines 7-14): keeps the
paragraphs passing `para.text and para.text.strip()` (non-empty and not
whitespace-only) and joins them with newlines into the derived full text. -/
def parse_docx_documents (files : List (String × List String)) : List ParsedDocument :=
  files.map (fun f =>
    let paras := (document_paragraphs f).filter (fun t => (t != "") && (pyStrip t != ""))
    { path := f.1, text := String.intercalate "\n" paras, paragraphs := paras })

/-- The app-level annotation call (app.py line 233):
`insert_review_notes_and_save(d["path"], doc_issues, out_path)` re-opens
`Document(original_path)` (docx_utils.py line 75), so the annotation engine
works on the container's full paragraph list, not on the filtered
`ParsedDocument.paragraphs`. -/
def insert_review_notes_for_file (file : String × List String)
    (issues : List Issue) : List String :=
  insert_review_notes_and_save (document_paragraphs file) issues

/-- Regex `\b` side condition at one side of a match: the neighbouring
character (if any) must not be a word character.  The match patterns below
begin and end with word characters, so this is exactly Python's boundary. -/
def boundaryOk : Option Char → Bool
  | none => true
  | some c => !(isWordChar c)

/-- A word-bounded occurrence of `phrase` starting at the current position:
`prev` is the character just before the position (`none` at the string
start), `rest` the remaining characters. -/
def matchesWordAt (phrase : List Char) (prev : Option Char) (rest : List Char) : Bool :=
  boundaryOk prev && List.isPrefixOf phrase rest && boundaryOk (rest.drop phrase.length).head?

/-- Scan all positions of the haystack for a word-bounded occurrence. -/
def searchWordAux (phrase : List Char) : Option Char → List Char → Bool
  | prev, [] => matchesWordAt phrase prev []
  | prev, c :: cs => matchesWordAt phrase prev (c :: cs) || searchWordAux phrase (some c) cs

/-- Truth of `re.search(r"\b<phrase>\b", hay)` for a literal phrase. -/
def containsWordBounded (hay phrase : String) : Bool :=
  searchWordAux phrase.data none hay.data

/-- Truth of `re.search(r"\b(a1|a2|...)\b", hay)`: some alternative occurs
word-bounded somewhere in the haystack. -/
def searchAnyWordBounded (alternatives : List String) (hay : String) : Bool :=
  alternatives.any (fun alt => containsWordBounded hay alt)

/-- `len([w for w in re.split(r"\s+", text_l) if w.strip()])`
(classifier.py line 18).  Pieces of a whitespace split contain no whitespace,
so `w.strip()` is truthy exactly when the piece is non-empty. -/
def word_count (text_l : String) : Nat :=
  ((splitOnPred Char.isWhitespace text_l.data).filter (fun w => !w.isEmpty)).length

/-- `classify_doc_type(text)` (classifier.py lines 4-24): fixed-priority,
case-insensitive keyword rules; first match wins; a sub-40-word text that
matched no rule is a "Short Document"; everything else falls back to
"Commercial Agreement / Other" (both final branches return the same label,
as in the source). -/
def classify_doc_type (text : String) : String :=
  let text_l := pyLower text
  if searchAnyWordBounded ["aoa", "articles of association", "article of association"] text_l then
    "Articles of Association"
  else if searchAnyWordBounded ["moa", "memorandum of association", "memorandum"] text_l then
    "Memorandum of Association"
  else if searchAnyWordBounded
      ["ubo", "ultimate beneficial owner", "ultimate beneficial owner declaration"] text_l then
    "UBO Declaration Form"
  else if searchAnyWordBounded
      ["register of members and directors", "register of members", "register of directors"]
      text_l then
    "Register of Members and Directors"
  else if searchAnyWordBounded
      ["incorporation application", "application for incorporation",
       "application to incorporate", "incorporation form"] text_l then
    "Incorporation Application Form"
  else if word_count text_l < 40 then "Short Document"
  else if searchAnyWordBounded ["agreement", "contract", "terms", "conditions"] text_l then
    "Commercial Agreement / Other"
  else "Commercial Agreement / Other"

/-- The `incorporation_keywords` set of `detect_process` (classifier.py lines
28-30); only membership is ever tested, so a list models the Python set. -/
def incorporation_keywords : List String :=
  ["Articles of Association", "Memorandum of Association", "Incorporation Application Form",
   "UBO Declaration Form", "Register of Members and Directors"]

/-- `detect_process(predicted_types)` (classifier.py lines 27-37). -/
def detect_process (predicted_types : List String) : String :=
  if predicted_types.isEmpty then "Unknown / Other"
  else if 2 ≤ predicted_types.countP (fun pt => incorporation_keywords.contains pt) then
    "Company Incorporation"
  else "Unknown / Other"

/-- The jurisdiction red-flag issue record (app.py lines 105-111). -/
def jurisdictionIssue (docType : String) : Issue :=
  { document := some docType, sectionLabel := some "Jurisdiction clause",
    issue := some "Jurisdiction clause does not specify ADGM", severity := some "High",
    suggestion := some "Update jurisdiction to Abu Dhabi Global Market (ADGM) Courts." }

/-- The signatory red-flag issue record (app.py lines 113-119). -/
def signatoryIssue (docType : String) : Issue :=
  { document := some docType, sectionLabel := some "Signatory section",
    issue := some "Missing explicit signatory or signature block", severity := some "Medium",
    suggestion := some "Add signatory name, title and date." }

/-- The module-level rule-based red-flag checks of app.py (lines 101-119),
restricted to one document with full text `text` and predicted type
`docType`: the issues appended to `issues_found` for that document. -/
def redFlagIssues (docType text : String) : List Issue :=
  (if !(strContainsSub (pyLower text) "adgm") &&
      !(strContainsSub (pyLower text) "abu dhabi global market") then
    [jurisdictionIssue docType]
  else []) ++
  (if !(strContainsSub (pyLower text) "signature") &&
      !(strContainsSub (pyLower text) "signed") then
    [signatoryIssue docType]
  else [])

/-- The spec-side description of `locateBestParagraph`: score every paragraph,
take the maximum score; if it is 0 the result is "no match", otherwise the
result is the index of the *earliest* maximum-scoring paragraph. -/
def locateBestParagraphSpec (paragraphs : List String)
    (sectionLabel issueText : String) : Option Nat :=
  let scores := paragraphs.map
    (fun para => scoreParagraph (tokenize sectionLabel) (tokenize issueText) (pyLower para))
  let maxScore := scores.foldr max 0
  if maxScore = 0 then none else some (scores.findIdx (fun sc => sc == maxScore))

/-- `bestLoop` abstracted over the already-computed score list. -/
def bestLoopN : List Nat → Nat → Option Nat → Nat → Option Nat × Nat
  | [], _, bestIdx, bestScore => (bestIdx, bestScore)
  | x :: rest, i, bestIdx, bestScore =>
    if bestScore < x then bestLoopN rest (i + 1) (some i) x
    else bestLoopN rest (i + 1) bestIdx bestScore

/-- The spec-side description of the classifier: an ordered list of
(predicate, label) rules evaluated on the lowercased text; the first rule
whose predicate holds supplies the label, with a generic fallback. -/
def classifyRules (text_l : String) : List (Bool × String) :=
  [(searchAnyWordBounded ["aoa", "articles of association", "article of association"] text_l,
      "Articles of Association"),
   (searchAnyWordBounded ["moa", "memorandum of association", "memorandum"] text_l,
      "Memorandum of Association"),
   (searchAnyWordBounded
        ["ubo", "ultimate beneficial owner", "ultimate beneficial owner declaration"] text_l,
      "UBO Declaration Form"),
   (searchAnyWordBounded
        ["register of members and directors", "register of members", "register of directors"]
        text_l,
      "Register of Members and Directors"),
   (searchAnyWordBounded
        ["incorporation application", "application for incorporation",
         "application to incorporate", "incorporation form"] text_l,
      "Incorporation Application Form"),
   (decide (word_count text_l < 40), "Short Document"),
   (searchAnyWordBounded ["agreement", "contract", "terms", "conditions"] text_l,
      "Commercial Agreement / Other")]

/-- First matching rule wins; no scoring. -/
def classifySpecOrdered (text : String) : String :=
  match (classifyRules (pyLower text)).find? (fun rule => rule.1) with
  | some rule => rule.2
  | none => "Commercial Agreement / Other"

/-- A paragraph is a review note when it starts with the marker shared by
both note shapes: targeted notes start `"REVIEW NOTE (severity="` and
fallback notes `"REVIEW NOTE (general): "`, so the first 13 characters
identify both. -/
def isReviewNote (s : String) : Bool :=
  s.data.take 13 == "REVIEW NOTE (".data

/-- Counterexample document for claim C3: two paragraphs, one about the
jurisdiction clause and one about the signatory block. -/
def cexParagraphs : List String :=
  ["jurisdiction adgm courts", "signature block signed director"]

/-- First counterexample issue: matches the jurisdiction paragraph. -/
def cexIssue1 : Issue :=
  { sectionLabel := some "jurisdiction", issue := some "jurisdiction missing" }

/-- Second counterexample issue: its intended paragraph is the signature
paragraph, but its tokens also occur in the note inserted for `cexIssue1`. -/
def cexIssue2 : Issue :=
  { sectionLabel := some "signature",
    issue := some "signature note severity suggestion review" }

/-! ## Helper lemmas -/

theorem bestLoop_eq_bestLoopN (scoreOf : String → Nat) (ps : List String) :
    ∀ (i : Nat) (b : Option Nat) (s : Nat),
      bestLoop scoreOf ps i b s = bestLoopN (ps.map scoreOf) i b s := by
  induction ps with
  | nil => intro i b s; rfl
  | cons p rest ih =>
    intro i b s
    simp only [bestLoop, List.map, bestLoopN]
    by_cases h : s < scoreOf p
    · rw [if_pos h, if_pos h, ih]
    · rw [if_neg h, if_neg h, ih]

theorem bestLoopN_spec (xs : List Nat) : ∀ (i : Nat) (b : Option Nat) (s : Nat),
    bestLoopN xs i b s =
      if xs.foldr max 0 ≤ s then (b, s)
      else (some (i + xs.findIdx (fun x => x == xs.foldr max 0)), xs.foldr max 0) := by
  induction xs with
  | nil =>
    intro i b s
    simp [bestLoopN, List.foldr]
  | cons x rest ih =>
    intro i b s
    have hfold : (x :: rest).foldr max 0 = max x (rest.foldr max 0) := rfl
    set Mr := rest.foldr max 0 with hMr
    by_cases hsx : s < x
    · -- the head strictly improves the running best
      simp only [bestLoopN, if_pos hsx, hfold]
      by_cases hmx : Mr ≤ x
      · rw [ih, if_pos hmx, max_eq_left hmx, if_neg (by omega)]
        have hbx : (x == x) = true := by simp
        simp [List.findIdx_cons, hbx]
      · have hxm : x < Mr := by omega
        rw [ih, if_neg (by omega), max_eq_right (le_of_lt hxm), if_neg (by omega)]
        have hbx : (x == Mr) = false := by
          simp only [beq_eq_false_iff_ne]; omega
        simp only [List.findIdx_cons, hbx, cond_false]
        have harith : i + 1 + List.findIdx (fun y => y == Mr) rest =
            i + (List.findIdx (fun y => y == Mr) rest + 1) := by omega
        rw [harith]
    · -- the head does not improve the running best
      simp only [bestLoopN, if_neg hsx, hfold]
      by_cases hms : Mr ≤ s
      · rw [ih, if_pos hms, if_pos (by omega)]
      · have hsm : s < Mr := by omega
        have hxltm : x < Mr := by omega
        rw [ih, if_neg (by omega), max_eq_right (le_of_lt hxltm), if_neg (by omega)]
        have hbx : (x == Mr) = false := by
          simp only [beq_eq_false_iff_ne]; omega
        simp only [List.findIdx_cons, hbx, cond_false]
        have harith : i + 1 + List.findIdx (fun y => y == Mr) rest =
            i + (List.findIdx (fun y => y == Mr) rest + 1) := by omega
        rw [harith]

/-- The paragraph matcher agrees with the spec-side earliest-argmax
description. -/
theorem find_eq_locateSpec (paragraphs : List String) (sectionLabel issueText : String) :
    find_paragraph_index_for_issue paragraphs sectionLabel issueText =
      locateBestParagraphSpec paragraphs sectionLabel issueText := by
  unfold find_paragraph_index_for_issue locateBestParagraphSpec
  dsimp only
  rw [bestLoop_eq_bestLoopN, bestLoopN_spec]
  set scores := paragraphs.map
    (fun para => scoreParagraph (tokenize sectionLabel) (tokenize issueText) (pyLower para))
  by_cases h : scores.foldr max 0 = 0
  · simp [h]
  · have h1 : ¬ (scores.foldr max 0 ≤ 0) := by omega
    have h2 : 1 ≤ scores.foldr max 0 := by omega
    simp [h, h1, h2]

/-- A non-zero `foldr max 0` over naturals is attained by a list element. -/
theorem foldr_max_mem (xs : List Nat) (h : xs.foldr max 0 ≠ 0) :
    xs.foldr max 0 ∈ xs := by
  induction xs with
  | nil => simp at h
  | cons x rest ih =>
    have hfold : (x :: rest).foldr max 0 = max x (rest.foldr max 0) := rfl
    rw [hfold] at h ⊢
    by_cases hmx : rest.foldr max 0 ≤ x
    · rw [max_eq_left hmx]; exact List.mem_cons_self _ _
    · have hx : x ≤ rest.foldr max 0 := by omega
      rw [max_eq_right hx] at h ⊢
      exact List.mem_cons_of_mem _ (ih h)

/-- When the matcher returns an index, that index is in range. -/
theorem find_some_lt (paragraphs : List String) (sectionLabel issueText : String)
    (k : Nat) (h : find_paragraph_index_for_issue paragraphs sectionLabel issueText = some k) :
    k < paragraphs.length := by
  rw [find_eq_locateSpec] at h
  unfold locateBestParagraphSpec at h
  set scores := paragraphs.map
    (fun para => scoreParagraph (tokenize sectionLabel) (tokenize issueText) (pyLower para))
    with hscores
  by_cases hz : scores.foldr max 0 = 0
  · rw [if_pos hz] at h; exact absurd h (by simp)
  · rw [if_neg hz] at h
    have hk : k = scores.findIdx (fun sc => sc == scores.foldr max 0) := by
      simpa using h.symm
    have hmem : ∃ sc ∈ scores, (sc == scores.foldr max 0) = true := by
      refine ⟨scores.foldr max 0, foldr_max_mem _ hz, by simp⟩
    have hlen : scores.length = paragraphs.length := by
      rw [hscores]; exact List.length_map _ _
    have := List.findIdx_lt_length_of_exists hmem
    omega

theorem take_append_left {α : Type _} : ∀ (n : Nat) (a b : List α), n ≤ a.length →
    (a ++ b).take n = a.take n := by
  intro n
  induction n with
  | zero => intro a b _; simp
  | succ m ih =>
    intro a b h
    cases a with
    | nil => simp at h
    | cons x xs =>
      simp only [List.cons_append, List.take_succ_cons]
      rw [ih xs b (by simpa using h)]

theorem isReviewNote_append (s t : String) (h : isReviewNote s = true)
    (hl : 13 ≤ s.data.length) :
    isReviewNote (s ++ t) = true ∧ 13 ≤ (s ++ t).data.length := by
  unfold isReviewNote at h ⊢
  rw [String.data_append]
  constructor
  · rw [take_append_left 13 s.data t.data hl]; exact h
  · rw [List.length_append]; omega

theorem isReviewNote_noteText (iss : Issue) : isReviewNote (noteTextOf iss) = true := by
  unfold noteTextOf
  exact (isReviewNote_append "REVIEW NOTE (severity=" _ (by decide) (by decide)).1

theorem isReviewNote_general (s : String) :
    isReviewNote ("REVIEW NOTE (general): " ++ s) = true :=
  (isReviewNote_append "REVIEW NOTE (general): " s (by decide) (by decide)).1

theorem insert_after_length (ps : List String) (i : Nat) (t : String) :
    (insert_after_paragraph ps i t).length = ps.length + 1 := by
  unfold insert_after_paragraph
  by_cases h : i < ps.length
  · rw [if_pos h]
    simp only [List.length_append, List.length_take, List.length_drop, List.length_cons,
      List.length_nil]
    omega
  · rw [if_neg h]; simp

theorem insert_after_sublist (ps : List String) (i : Nat) (t : String) :
    ps.Sublist (insert_after_paragraph ps i t) := by
  unfold insert_after_paragraph
  by_cases h : i < ps.length
  · rw [if_pos h, List.append_assoc]
    conv_lhs => rw [← List.take_append_drop (i + 1) ps]
    exact List.Sublist.append_left (List.sublist_cons_self t (ps.drop (i + 1))) _
  · rw [if_neg h]
    exact List.sublist_append_left ps [t]

theorem insert_after_countP (ps : List String) (i : Nat) (t : String)
    (h : isReviewNote t = true) :
    (insert_after_paragraph ps i t).countP isReviewNote = ps.countP isReviewNote + 1 := by
  unfold insert_after_paragraph
  by_cases hi : i < ps.length
  · rw [if_pos hi]
    have hsplit : ps.countP isReviewNote =
        (ps.take (i + 1)).countP isReviewNote + (ps.drop (i + 1)).countP isReviewNote := by
      rw [← List.countP_append, List.take_append_drop]
    rw [hsplit]
    simp only [List.countP_append, List.countP_cons, List.countP_nil, h, if_true]
    omega
  · rw [if_neg hi]
    simp [List.countP_append, List.countP_cons, h]

/-- annotateIssue either inserts the note after the found index (non-empty
section, successful lookup) or appends the general fallback note. -/
theorem annotateIssue_eq (ps : List String) (iss : Issue) :
    (∃ idx, iss.sectionLabel.getD "" ≠ "" ∧
      find_paragraph_index_for_issue ps (iss.sectionLabel.getD "") (iss.issue.getD "") =
        some idx ∧
      annotateIssue ps iss = insert_after_paragraph ps idx (noteTextOf iss)) ∨
    annotateIssue ps iss = ps ++ ["REVIEW NOTE (general): " ++ noteTextOf iss] := by
  unfold annotateIssue
  dsimp only
  by_cases hs : iss.sectionLabel.getD "" ≠ ""
  · rw [if_pos hs]
    cases hf : find_paragraph_index_for_issue ps (iss.sectionLabel.getD "") (iss.issue.getD "") with
    | none => right; rfl
    | some idx => left; exact ⟨idx, hs, rfl, rfl⟩
  · rw [if_neg hs]
    right; rfl

theorem annotateIssue_length (ps : List String) (iss : Issue) :
    (annotateIssue ps iss).length = ps.length + 1 := by
  rcases annotateIssue_eq ps iss with ⟨idx, _, _, heq⟩ | heq
  · rw [heq, insert_after_length]
  · rw [heq]; simp

theorem annotateIssue_sublist (ps : List String) (iss : Issue) :
    ps.Sublist (annotateIssue ps iss) := by
  rcases annotateIssue_eq ps iss with ⟨idx, _, _, heq⟩ | heq
  · rw [heq]; exact insert_after_sublist ps idx _
  · rw [heq]; exact List.sublist_append_left _ _

theorem annotateIssue_countP (ps : List String) (iss : Issue) :
    (annotateIssue ps iss).countP isReviewNote = ps.countP isReviewNote + 1 := by
  rcases annotateIssue_eq ps iss with ⟨idx, _, _, heq⟩ | heq
  · rw [heq, insert_after_countP ps idx _ (isReviewNote_noteText iss)]
  · rw [heq]
    simp [List.countP_append, List.countP_cons, isReviewNote_general (noteTextOf iss)]

theorem insert_notes_length (issues : List Issue) : ∀ ps : List String,
    (insert_review_notes_and_save ps issues).length = ps.length + issues.length := by
  induction issues with
  | nil => intro ps; rfl
  | cons iss rest ih =>
    intro ps
    show (insert_review_notes_and_save (annotateIssue ps iss) rest).length = _
    rw [ih, annotateIssue_length]
    simp only [List.length_cons]
    omega

theorem insert_notes_sublist (issues : List Issue) : ∀ ps : List String,
    ps.Sublist (insert_review_notes_and_save ps issues) := by
  induction issues with
  | nil => intro ps; exact List.Sublist.refl ps
  | cons iss rest ih =>
    intro ps
    exact (annotateIssue_sublist ps iss).trans (ih (annotateIssue ps iss))

theorem insert_notes_countP (issues : List Issue) : ∀ ps : List String,
    (insert_review_notes_and_save ps issues).countP isReviewNote =
      ps.countP isReviewNote + issues.length := by
  induction issues with
  | nil => intro ps; rfl
  | cons iss rest ih =>
    intro ps
    show (insert_review_notes_and_save (annotateIssue ps iss) rest).countP isReviewNote = _
    rw [ih, annotateIssue_countP]
    simp only [List.length_cons]
    omega

/-! ## Claims -/

/-- C1: for every document and every non-empty issue list, annotation
produces at least as many paragraphs as the original, adds exactly one
paragraph per issue, keeps every original paragraph, and the number of
review-note paragraphs grows by exactly the number of issues: every supplied
issue yields exactly one inserted note (targeted or general fallback), no
issue is dropped and no duplicate notes are created. -/
theorem annotate_adds_exactly_one_note_per_issue (d : List String) (I : List Issue)
    (_hI : I ≠ []) :
    d.length ≤ (insert_review_notes_and_save d I).length ∧
    (insert_review_notes_and_save d I).length = d.length + I.length ∧
    d.Sublist (insert_review_notes_and_save d I) ∧
    (insert_review_notes_and_save d I).countP isReviewNote =
      d.countP isReviewNote + I.length := by
  refine ⟨?_, insert_notes_length I d, insert_notes_sublist I d, insert_notes_countP I d⟩
  rw [insert_notes_length I d]
  omega

/-- Witness for C1 at a concrete one-paragraph document and one-issue list. -/
theorem annotate_adds_exactly_one_note_per_issue_witness :
    (["alpha"] : List String).length ≤
      (insert_review_notes_and_save ["alpha"] [{ issue := some "x" }]).length ∧
    (insert_review_notes_and_save ["alpha"] [{ issue := some "x" }]).length =
      (["alpha"] : List String).length + ([{ issue := some "x" }] : List Issue).length ∧
    List.Sublist ["alpha"] (insert_review_notes_and_save ["alpha"] [{ issue := some "x" }]) ∧
    (insert_review_notes_and_save ["alpha"] [{ issue := some "x" }]).countP isReviewNote =
      (["alpha"] : List String).countP isReviewNote +
        ([{ issue := some "x" }] : List Issue).length :=
  annotate_adds_exactly_one_note_per_issue ["alpha"] [{ issue := some "x" }] (by decide)

/-- C2: the paragraph matcher tokenizes the section label and issue text into
lowercased tokens of length > 3 split on non-word runs, scores every
paragraph in order (+2 per section-token occurrence, +1 per issue-token
occurrence, substring containment on the lowercased paragraph), and returns
the earliest maximum-scoring index when the maximum score is at least 1 and
`none` when it is 0 — it coincides exactly with the spec-side
earliest-argmax-with-threshold description. -/
theorem find_paragraph_index_refines_earliest_argmax (paragraphs : List String)
    (sectionLabel issueText : String) :
    find_paragraph_index_for_issue paragraphs sectionLabel issueText =
      locateBestParagraphSpec paragraphs sectionLabel issueText :=
  find_eq_locateSpec paragraphs sectionLabel issueText

/-- C3 counterexample: with two issues processed sequentially, the second
issue's intended original paragraph is index 1 of the original document, but
its tokens score higher on the note inserted for the first issue than on any
original paragraph, so its note is inserted after that earlier note and
*precedes* its intended original paragraph instead of landing immediately
after it. -/
theorem note_interference_counterexample :
    find_paragraph_index_for_issue cexParagraphs "signature"
        "signature note severity suggestion review" = some 1 ∧
    insert_review_notes_and_save cexParagraphs [cexIssue1, cexIssue2] =
      ["jurisdiction adgm courts",
       "REVIEW NOTE (severity=Medium): jurisdiction missing. Suggestion: ",
       "REVIEW NOTE (severity=Medium): signature note severity suggestion review. Suggestion: ",
       "signature block signed director"] ∧
    List.indexOf
        "REVIEW NOTE (severity=Medium): signature note severity suggestion review. Suggestion: "
        (insert_review_notes_and_save cexParagraphs [cexIssue1, cexIssue2]) <
      List.indexOf "signature block signed director"
        (insert_review_notes_and_save cexParagraphs [cexIssue1, cexIssue2]) :=
  ⟨by decide, by decide, by decide⟩

/-- C3 (amended): the relative order of all original paragraphs is always
preserved, and every targeted insertion lands immediately after the
paragraph of the *live*, already-extended sequence that the matcher selects
at insertion time; in particular, when that live best match is an original
paragraph (always the case for the first issue processed), the note lands
immediately after its intended original paragraph, but an earlier inserted
note can outscore every original paragraph, in which case a later note
attaches after that note and may precede its intended original paragraph. -/
theorem annotate_keeps_original_order_and_inserts_after_live_match :
    (∀ (d : List String) (I : List Issue), d.Sublist (insert_review_notes_and_save d I)) ∧
    (∀ (paragraphs : List String) (iss : Issue) (idx : Nat),
      iss.sectionLabel.getD "" ≠ "" →
      find_paragraph_index_for_issue paragraphs (iss.sectionLabel.getD "")
        (iss.issue.getD "") = some idx →
      annotateIssue paragraphs iss =
        paragraphs.take (idx + 1) ++ [noteTextOf iss] ++ paragraphs.drop (idx + 1)) := by
  constructor
  · intro d I
    exact insert_notes_sublist I d
  · intro paragraphs iss idx hs hf
    have hlt := find_some_lt _ _ _ _ hf
    unfold annotateIssue
    dsimp only
    rw [if_pos hs, hf]
    show insert_after_paragraph paragraphs idx (noteTextOf iss) = _
    unfold insert_after_paragraph
    rw [if_pos hlt]

/-- Witness for the amended C3: a concrete targeted insertion lands right
after the matched paragraph. -/
theorem annotate_keeps_original_order_witness :
    annotateIssue ["jurisdiction adgm"]
        { sectionLabel := some "jurisdiction", issue := some "jurisdiction missing" } =
      (["jurisdiction adgm"] : List String).take 1 ++
        [noteTextOf { sectionLabel := some "jurisdiction", issue := some "jurisdiction missing" }] ++
        (["jurisdiction adgm"] : List String).drop 1 :=
  annotate_keeps_original_order_and_inserts_after_live_match.2 ["jurisdiction adgm"]
    { sectionLabel := some "jurisdiction", issue := some "jurisdiction missing" } 0
    (by decide) (by decide)

/-- C4: annotating one issue is total and always adds exactly one note, even
for records with missing fields; whenever the section label is empty or the
paragraph lookup returns `none`, the general fallback note
`"REVIEW NOTE (general): <noteText>"` is appended at the end; a missing
severity defaults to `"Medium"` and a missing suggestion to the empty
string, and a missing description still yields a note (rendered `"None"` by
the f-string). -/
theorem annotate_issue_never_fails_and_falls_back (paragraphs : List String) (iss : Issue) :
    (annotateIssue paragraphs iss).length = paragraphs.length + 1 ∧
    ((iss.sectionLabel.getD "" = "" ∨
        find_paragraph_index_for_issue paragraphs (iss.sectionLabel.getD "")
          (iss.issue.getD "") = none) →
      annotateIssue paragraphs iss =
        paragraphs ++ ["REVIEW NOTE (general): " ++ noteTextOf iss]) ∧
    (iss.severity = none → iss.suggestion = none →
      noteTextOf iss =
        "REVIEW NOTE (severity=Medium): " ++ pyInterp iss.issue ++ ". Suggestion: ") := by
  refine ⟨annotateIssue_length paragraphs iss, ?_, ?_⟩
  · intro h
    unfold annotateIssue
    dsimp only
    rcases h with h | h
    · rw [if_neg (by simp [h])]
    · by_cases hs : iss.sectionLabel.getD "" ≠ ""
      · rw [if_pos hs, h]
      · rw [if_neg hs]
  · intro hsev hsug
    unfold noteTextOf
    rw [hsev, hsug]
    simp only [Option.getD_none]
    apply String.ext
    have hnil : ("" : String).data = ([] : List Char) := rfl
    have hlit : ("REVIEW NOTE (severity=Medium): " : String).data =
        ("REVIEW NOTE (severity=" : String).data ++
          (("Medium" : String).data ++ ("): " : String).data) := by decide
    simp only [String.data_append, hnil, List.append_nil, hlit, List.append_assoc]
    rw [← List.append_assoc, ← List.append_assoc]
    congr 1

/-- Witness for C4 at a record with no section label, severity or
suggestion: the fallback note is appended with the defaults. -/
theorem annotate_issue_never_fails_witness :
    (annotateIssue ["p"] ({ issue := some "desc" } : Issue)).length =
      (["p"] : List String).length + 1 ∧
    annotateIssue ["p"] ({ issue := some "desc" } : Issue) =
      ["p"] ++ ["REVIEW NOTE (general): " ++ noteTextOf ({ issue := some "desc" } : Issue)] ∧
    noteTextOf ({ issue := some "desc" } : Issue) =
      "REVIEW NOTE (severity=Medium): " ++ pyInterp ({ issue := some "desc" } : Issue).issue ++
        ". Suggestion: " :=
  ⟨(annotate_issue_never_fails_and_falls_back ["p"] { issue := some "desc" }).1,
   (annotate_issue_never_fails_and_falls_back ["p"] { issue := some "desc" }).2.1 (Or.inl rfl),
   (annotate_issue_never_fails_and_falls_back ["p"] { issue := some "desc" }).2.2 rfl rfl⟩

/-- C5: on the example paragraph list and the jurisdiction issue, the
paragraph matcher returns index 0 (only the first paragraph contains a kept
token, namely the issue token "adgm"). -/
theorem locate_jurisdiction_example_index_zero :
    find_paragraph_index_for_issue
      ["ADGM Courts apply.", "Random text.", "Signed by director."]
      "Jurisdiction clause" "Jurisdiction clause does not specify ADGM" = some 0 := by decide

/-- C6: annotating any document with an empty issue list returns the
document unchanged, paragraph for paragraph. -/
theorem annotate_empty_issue_list_identity (d : List String) :
    insert_review_notes_and_save d [] = d := rfl

/-- C7: classification is deterministic, depends only on case-insensitive
keyword/pattern presence, and evaluates the rules in the fixed priority order
Articles → Memorandum → UBO → Register → Incorporation-Application →
word-count "Short Document" → generic fallback, with the first matching rule
winning: it equals the ordered-rule-list first-match evaluation; and the
Memorandum example classifies as "Memorandum of Association". -/
theorem classify_fixed_priority_first_match :
    (∀ text : String, classify_doc_type text = classifySpecOrdered text) ∧
    classify_doc_type "This is the Memorandum of Association of Example Ltd." =
      "Memorandum of Association" := by
  constructor
  · intro text
    unfold classify_doc_type classifySpecOrdered classifyRules
    dsimp only
    cases h1 : searchAnyWordBounded
        ["aoa", "articles of association", "article of association"] (pyLower text) <;>
      cases h2 : searchAnyWordBounded
        ["moa", "memorandum of association", "memorandum"] (pyLower text) <;>
      cases h3 : searchAnyWordBounded
        ["ubo", "ultimate beneficial owner", "ultimate beneficial owner declaration"]
        (pyLower text) <;>
      cases h4 : searchAnyWordBounded
        ["register of members and directors", "register of members", "register of directors"]
        (pyLower text) <;>
      cases h5 : searchAnyWordBounded
        ["incorporation application", "application for incorporation",
         "application to incorporate", "incorporation form"] (pyLower text) <;>
      by_cases h6 : word_count (pyLower text) < 40 <;>
      cases h7 : searchAnyWordBounded
        ["agreement", "contract", "terms", "conditions"] (pyLower text) <;>
      simp [List.find?, h1, h2, h3, h4, h5, h6, h7]
  · decide

/-- C8: process detection returns "Company Incorporation" exactly when at
least 2 of the input labels (with multiplicity) lie in the fixed 5-label
incorporation set, and "Unknown / Other" otherwise (including the empty
list); both quoted examples evaluate as stated. -/
theorem detect_process_two_core_docs_threshold :
    (∀ labels : List String,
      (detect_process labels = "Company Incorporation" ↔
        2 ≤ labels.countP (fun pt => incorporation_keywords.contains pt)) ∧
      (detect_process labels = "Unknown / Other" ↔
        labels.countP (fun pt => incorporation_keywords.contains pt) < 2)) ∧
    detect_process ["Articles of Association", "Memorandum of Association"] =
      "Company Incorporation" ∧
    detect_process ["Commercial Agreement / Other"] = "Unknown / Other" := by
  refine ⟨?_, by decide, by decide⟩
  intro labels
  have hne1 : ("Unknown / Other" : String) ≠ "Company Incorporation" := by decide
  have hne2 : ("Company Incorporation" : String) ≠ "Unknown / Other" := by decide
  unfold detect_process
  by_cases he : labels.isEmpty
  · rw [if_pos he]
    have hnil : labels = [] := List.isEmpty_iff.mp he
    subst hnil
    constructor
    · exact ⟨fun h => absurd h hne1, fun h => absurd h (by simp [List.countP_nil] at h ⊢)⟩
    · exact ⟨fun _ => by simp [List.countP_nil], fun _ => rfl⟩
  · rw [if_neg he]
    by_cases hc : 2 ≤ labels.countP (fun pt => incorporation_keywords.contains pt)
    · rw [if_pos hc]
      refine ⟨⟨fun _ => hc, fun _ => rfl⟩, ⟨fun h => absurd h hne2, fun h => absurd hc (by omega)⟩⟩
    · rw [if_neg hc]
      refine ⟨⟨fun h => absurd h hne1, fun h => absurd h (by omega)⟩, ⟨fun _ => by omega, fun _ => rfl⟩⟩

/-- Witness for C8: two core incorporation labels trigger the incorporation
verdict via the threshold equivalence. -/
theorem detect_process_two_core_docs_threshold_witness :
    detect_process ["Articles of Association", "UBO Declaration Form"] =
      "Company Incorporation" :=
  ((detect_process_two_core_docs_threshold.1
      ["Articles of Association", "UBO Declaration Form"]).1).mpr (by decide)

/-- C9: the red-flag scanner emits the High-severity "Jurisdiction clause"
issue exactly when neither "adgm" nor "abu dhabi global market" occurs in
the lowercased full text, and the Medium-severity "Signatory section" issue
exactly when neither "signature" nor "signed" occurs. -/
theorem red_flag_rules_iff (docType text : String) :
    (jurisdictionIssue docType ∈ redFlagIssues docType text ↔
      (strContainsSub (pyLower text) "adgm" = false ∧
        strContainsSub (pyLower text) "abu dhabi global market" = false)) ∧
    (jurisdictionIssue docType).severity = some "High" ∧
    (signatoryIssue docType ∈ redFlagIssues docType text ↔
      (strContainsSub (pyLower text) "signature" = false ∧
        strContainsSub (pyLower text) "signed" = false)) ∧
    (signatoryIssue docType).severity = some "Medium" := by
  have hne : jurisdictionIssue docType ≠ signatoryIssue docType := by
    intro hEq
    have hfld : (some "Jurisdiction clause" : Option String) ≠ some "Signatory section" := by
      decide
    exact absurd (congrArg Issue.sectionLabel hEq) hfld
  refine ⟨?_, rfl, ?_, rfl⟩
  · unfold redFlagIssues
    cases hc1 : (!(strContainsSub (pyLower text) "adgm") &&
        !(strContainsSub (pyLower text) "abu dhabi global market")) <;>
      cases hc2 : (!(strContainsSub (pyLower text) "signature") &&
        !(strContainsSub (pyLower text) "signed")) <;>
      simp_all [Bool.and_eq_true, Bool.not_eq_true']
  · unfold redFlagIssues
    cases hc1 : (!(strContainsSub (pyLower text) "adgm") &&
        !(strContainsSub (pyLower text) "abu dhabi global market")) <;>
      cases hc2 : (!(strContainsSub (pyLower text) "signature") &&
        !(strContainsSub (pyLower text) "signed")) <;>
      simp_all [Bool.and_eq_true, Bool.not_eq_true', hne.symm]

/-- Witness for C9: a text with no jurisdiction wording gets the
jurisdiction red flag via the equivalence. -/
theorem red_flag_rules_iff_witness :
    jurisdictionIssue "T" ∈ redFlagIssues "T" "no jurisdiction mentioned, signed" :=
  ((red_flag_rules_iff "T" "no jurisdiction mentioned, signed").1).mpr (by decide)

/-- C10 counterexample: the loader filters blank paragraphs out of the
parsed sequence, but the annotation engine re-loads the file from its path
and therefore scans the container's full paragraph list, which can contain
the empty string. -/
theorem parse_filter_vs_engine_input_counterexample :
    (parse_docx_documents [("a.docx", ["", "adgm clause"])]).map ParsedDocument.paragraphs =
      [["adgm clause"]] ∧
    document_paragraphs ("a.docx", ["", "adgm clause"]) = ["", "adgm clause"] ∧
    "" ∈ document_paragraphs ("a.docx", ["", "adgm clause"]) ∧
    insert_review_notes_for_file ("a.docx", ["", "adgm clause"]) [] = ["", "adgm clause"] :=
  ⟨by decide, rfl, by decide, rfl⟩

/-- C10 (amended): the loader keeps exactly the paragraphs that are
non-empty after stripping, in their original order, and sets the derived
full text to the newline-join of the kept paragraphs; the classifier
consumes this filtered output, while the annotation engine re-loads the
container and sees its unfiltered paragraph list. -/
theorem parse_docx_keeps_exactly_nonblank (path : String) (raws : List String)
    (d : ParsedDocument) (hd : d ∈ parse_docx_documents [(path, raws)]) :
    d.paragraphs.Sublist raws ∧
    (∀ p ∈ d.paragraphs, pyStrip p ≠ "") ∧
    (∀ p ∈ raws, pyStrip p ≠ "" → p ∈ d.paragraphs) ∧
    d.text = String.intercalate "\n" d.paragraphs := by
  have hd' : d = ParsedDocument.mk path
      (String.intercalate "\n" (raws.filter (fun t => (t != "") && (pyStrip t != ""))))
      (raws.filter (fun t => (t != "") && (pyStrip t != ""))) := by
    simpa [parse_docx_documents, document_paragraphs] using hd
  subst hd'
  refine ⟨List.filter_sublist _, ?_, ?_, rfl⟩
  · intro p hp
    rw [List.mem_filter] at hp
    have h2 := hp.2
    rw [Bool.and_eq_true, bne_iff_ne, bne_iff_ne] at h2
    exact h2.2
  · intro p hp hps
    rw [List.mem_filter]
    refine ⟨hp, ?_⟩
    rw [Bool.and_eq_true, bne_iff_ne, bne_iff_ne]
    refine ⟨?_, hps⟩
    intro h0
    apply hps
    rw [h0]
    rfl

/-- Witness for the amended C10 on a concrete three-paragraph container with
one blank and one whitespace-only paragraph. -/
theorem parse_docx_keeps_exactly_nonblank_witness :
    ([" x "] : List String).Sublist ["", " x ", "  "] ∧
    (∀ p ∈ ([" x "] : List String), pyStrip p ≠ "") ∧
    (∀ p ∈ (["", " x ", "  "] : List String), pyStrip p ≠ "" → p ∈ ([" x "] : List String)) ∧
    (" x " : String) = String.intercalate "\n" [" x "] :=
  parse_docx_keeps_exactly_nonblank "f" ["", " x ", "  "]
    { path := "f", text := " x ", paragraphs := [" x "] } (by decide)

end ADGM
